import Mathlib

/-!
Verification of the MatchMyStack matching and embedding subsystem
(`backend/app/services/matching_engine.py` and
`backend/app/services/embedding_engine.py`), shallowly embedded in Lean.

Modelling conventions:
* Python floats are modelled as rationals (`ℚ`); machine integers as `Int`/`Nat`.
* Python dict-shaped records become structures; a `.get` that can see a missing
  key or an explicit `None` becomes an `Option` field.
* Python `try/except` becomes `Except`/`Option` plumbing made explicit.
* The sklearn `TfidfVectorizer` is external to the repository; its `fit` and
  `transform` are abstract function parameters (fallible, to model the
  exceptions sklearn can raise, e.g. on an empty vocabulary).
* Python's `str.lower`/`str.strip` are modelled on ASCII data, which is the
  shape of the skill/role tokens this code processes.
-/

namespace MatchMyStack

/-- Python `min(a, b)` on two numbers (returns the first argument on ties,
which agrees with `min` on `ℚ`; spelled out so that concrete instances reduce
in the kernel). -/
def pymin (a b : ℚ) : ℚ := if a ≤ b then a else b

/-- Python `max(a, b)` on two numbers. -/
def pymax (a b : ℚ) : ℚ := if a ≤ b then b else a

theorem pymin_eq_min (a b : ℚ) : pymin a b = min a b := (min_def a b).symm

theorem pymax_eq_max (a b : ℚ) : pymax a b = max a b := (max_def a b).symm

/-- ASCII whitespace recognised by Python `str.strip()`. -/
def pyIsSpace (c : Char) : Bool :=
  c = ' ' || c = '\t' || c = '\n' || c = '\r' || c = Char.ofNat 11 || c = Char.ofNat 12

/-- Python `str.strip()` on the character list: drop whitespace at both ends. -/
def pyStrip (cs : List Char) : List Char :=
  ((cs.dropWhile pyIsSpace).reverse.dropWhile pyIsSpace).reverse

/-- `normalize_skill` from `matching_engine.py`:
`skill.lower().strip().replace('.', '').replace(' ', '').replace('-', '').replace('_', '')`. -/
def normalize_skill (s : String) : String :=
  let lowered := s.data.map Char.toLower
  let stripped := pyStrip lowered
  String.mk (stripped.filter (fun c => !(c = '.' || c = ' ' || c = '-' || c = '_')))

/-- The `Match` dataclass from `matching_engine.py`. -/
structure Match where
  target_id : String
  score : ℚ
  reasons : List String
  shared_skills : List String
  complementary_skills : List String
deriving DecidableEq, Repr

/-- The `self.WEIGHTS` dict set in `MatchingEngine.__init__`. -/
structure Weights where
  skill_overlap : ℚ
  embedding_similarity : ℚ
  role_match : ℚ
  experience_fit : ℚ
  hackathon_bonus : ℚ
  availability : ℚ

/-- The concrete weight table of `MatchingEngine.__init__`. -/
def WEIGHTS : Weights :=
  { skill_overlap := 45/100
    embedding_similarity := 25/100
    role_match := 15/100
    experience_fit := 6/100
    hackathon_bonus := 5/100
    availability := 4/100 }

/-- The list of normalized keys of the Python dict
`{normalize_skill(s): s for s in l}` (distinct normalized keys; the order of
`dedup` is immaterial, every use is via membership, length or sorting). -/
def skillKeys (l : List String) : List String :=
  (l.map normalize_skill).dedup

/-- The value stored under key `k` in `{normalize_skill(s): s for s in l}`:
the LAST element of `l` whose normalized form is `k` (later dict entries
overwrite earlier ones).  Returns `""` if `k` is not a key. -/
def lastSpelling (l : List String) (k : String) : String :=
  (l.reverse.find? (fun s => normalize_skill s = k)).getD ""

/-- Lexicographic comparison of character lists by code point: Python `<`
on strings. -/
def charListLt : List Char → List Char → Bool
  | [], [] => false
  | [], _ :: _ => true
  | _ :: _, [] => false
  | a :: as, b :: bs =>
    if a.toNat < b.toNat then true
    else if b.toNat < a.toNat then false
    else charListLt as bs

/-- Python `a <= b` on strings (code-point lexicographic). -/
def strLe (a b : String) : Bool := !charListLt b.data a.data

/-- Python `sorted` on a list of strings (ascending; the keys being sorted are
pairwise distinct, so stability is immaterial). -/
def sortStr (l : List String) : List String :=
  l.insertionSort (fun a b => strLe a b = true)

/-- `MatchingEngine.calculate_skill_overlap`.  Returns
`(score, shared_skills, complementary_skills)`. -/
def calculate_skill_overlap (user_skills required_skills : List String) :
    ℚ × List String × List String :=
  if required_skills = [] then (1/2, [], [])
  else
    let userKeys := skillKeys user_skills
    let reqKeys := skillKeys required_skills
    -- shared_keys = set(user_normalized) & set(req_normalized)
    let sharedKeys := reqKeys.filter (fun k => decide (k ∈ userKeys))
    -- comp_keys = set(req_normalized) - set(user_normalized)
    let compKeys := reqKeys.filter (fun k => decide (k ∉ userKeys))
    -- shared = [req_normalized[k] for k in sorted(shared_keys)]
    let shared := (sortStr sharedKeys).map (lastSpelling required_skills)
    let complementary := (sortStr compKeys).map (lastSpelling required_skills)
    let overlap_ratio : ℚ := (sharedKeys.length : ℚ) / (reqKeys.length : ℚ)
    -- user_only_keys = set(user_normalized) - set(req_normalized)
    let user_only := userKeys.filter (fun k => decide (k ∉ reqKeys))
    let complementary_bonus : ℚ := pymin ((user_only.length : ℚ) * (5/100)) (2/10)
    (pymin (overlap_ratio + complementary_bonus) 1, shared, complementary)

/-- `MatchingEngine.calculate_experience_fit`. -/
def calculate_experience_fit (user_exp : Int) (required_exp_min : Int := 0)
    (required_exp_max : Int := 10) : ℚ :=
  if user_exp < required_exp_min then
    pymax (1/2) (1 - ((required_exp_min - user_exp : Int) : ℚ) * (15/100))
  else if user_exp > required_exp_max then
    pymax (7/10) (1 - ((user_exp - required_exp_max : Int) : ℚ) * (5/100))
  else 1

/-- `MatchingEngine.calculate_role_match`.  Returns `(ratio, matched)`.
`matched = list(user_set & req_set)`: a Python set intersection whose
iteration order is unspecified; modelled in user-side order. -/
def calculate_role_match (user_roles required_roles : List String) :
    ℚ × List String :=
  if required_roles = [] then (1, [])
  else
    let user_set := (user_roles.map (fun r => String.mk (r.data.map Char.toLower))).dedup
    let req_set := (required_roles.map (fun r => String.mk (r.data.map Char.toLower))).dedup
    let matched := user_set.filter (fun r => decide (r ∈ req_set))
    ((matched.length : ℚ) / (req_set.length : ℚ), matched)

/-- `MatchingEngine.calculate_availability_score`. -/
def calculate_availability_score (user_tz project_tz : String) : ℚ :=
  if user_tz = "" || project_tz = "" then 1
  else if user_tz = project_tz then 1 else 8/10

/-- `MatchingEngine.calculate_embedding_score`: cosine similarity, `0.0` when an
input is `None` or the engine call raises.  `cosineSim` abstracts
`embedding_engine.cosine_similarity`; `none` models a raised exception, which
the `try/except` turns into `0.0`. -/
def calculate_embedding_score (cosineSim : List ℚ → List ℚ → Option ℚ)
    (emb1 emb2 : Option (List ℚ)) : ℚ :=
  match emb1, emb2 with
  | some v1, some v2 => (cosineSim v1 v2).getD 0
  | _, _ => 0

/-- The candidate-side record (`user_data` dict) as read by
`match_user_to_project`, with the defaults that the `.get` calls supply. -/
structure UserData where
  skills : List String := []
  roles : List String := []
  embedding : Option (List ℚ) := none
  experience_years : Int := 0
  timezone : String := ""
deriving Repr

/-- The project-side record (`project_data` dict) as read by
`match_user_to_project`.  `Option` fields model a key that can be missing or
hold `None` (both falsy, and treated alike by the `or`-fallback reads). -/
structure ProjectData where
  id : Option String := none
  skills : Option (List String) := none
  required_skills : Option (List String) := none
  required_roles : Option (List String) := none
  roles : Option (List String) := none
  embedding : Option (List ℚ) := none
  min_experience : Int := 0
  max_experience : Int := 10
  timezone : String := ""
deriving Repr

/-- `proj_skills = project_data.get("skills") or project_data.get("required_skills", []) or []`:
a falsy (missing/`None`/empty) `skills` falls through to `required_skills`,
and a falsy `required_skills` falls through to `[]`. -/
def projSkillsOf (p : ProjectData) : List String :=
  match p.skills with
  | some (x :: xs) => x :: xs
  | _ =>
    match p.required_skills with
    | some (x :: xs) => x :: xs
    | _ => []

/-- `project_data.get("required_roles", []) or project_data.get("roles", [])`:
a falsy `required_roles` falls through to `roles` (default `[]`). -/
def projRolesOf (p : ProjectData) : List String :=
  match p.required_roles with
  | some (x :: xs) => x :: xs
  | _ => p.roles.getD []

/-- `max(0.0, min(1.0, x))`, the clamp applied to the final score. -/
def clamp01 (x : ℚ) : ℚ := pymax 0 (pymin 1 x)

/-- The reasons list built at the end of `match_user_to_project`.  Numeric
text formatting is approximated (`int(required_count * 0.8)` is exact-rational
floor rather than float truncation, and the `:.0%` percent format uses `round`);
no claim depends on the reason strings. -/
def matchReasons (shared_skills complementary matched_roles : List String)
    (required_count : Nat) (emb_score : ℚ) : List String :=
  let shared_count := shared_skills.length
  (if 0 < shared_count then
      [toString shared_count ++ "/" ++ toString required_count ++ " required skills matched"]
    else []) ++
  (if 0 < required_count ∧ max 1 (((required_count : ℚ) * (8/10)).floor.toNat) ≤ shared_count then
      ["Strong skill match!"]
    else []) ++
  (if matched_roles ≠ [] then
      ["Role fit: " ++ String.intercalate ", " matched_roles]
    else []) ++
  (if complementary ≠ [] ∧ 3 ≤ complementary.length then
      ["+" ++ toString complementary.length ++ " bonus skills"]
    else []) ++
  (if (7/10 : ℚ) < emb_score then
      ["Profile similarity: " ++ toString (round (emb_score * 100)) ++ "%"]
    else [])

/-- `MatchingEngine.match_user_to_project` on well-typed inputs (the success
path; the dynamically-typed entry point is `matchCandidate` below). -/
def match_user_to_project (cosineSim : List ℚ → List ℚ → Option ℚ)
    (user_data : UserData) (project_data : ProjectData) : Match :=
  let proj_skills := projSkillsOf project_data
  let user_skills := user_data.skills
  let so := calculate_skill_overlap user_skills proj_skills
  let skill_score := so.1
  let shared_skills := so.2.1
  let complementary := so.2.2
  let emb_score :=
    match user_data.embedding, project_data.embedding with
    | some ue, some pe => calculate_embedding_score cosineSim (some ue) (some pe)
    | _, _ => 0
  let rm := calculate_role_match user_data.roles (projRolesOf project_data)
  let role_score := rm.1
  let matched_roles := rm.2
  let exp_score := calculate_experience_fit user_data.experience_years
    project_data.min_experience project_data.max_experience
  let avail_score := calculate_availability_score user_data.timezone project_data.timezone
  let weighted :=
    skill_score * WEIGHTS.skill_overlap
    + emb_score * WEIGHTS.embedding_similarity
    + role_score * WEIGHTS.role_match
    + exp_score * WEIGHTS.experience_fit
    + avail_score * WEIGHTS.availability
  -- final_score += min(len(shared_skills) * 0.02, 0.12); clamp to [0, 1]
  let final_score := clamp01 (weighted + pymin ((shared_skills.length : ℚ) * (2/100)) (12/100))
  { target_id := project_data.id.getD "unknown"
    score := final_score
    reasons := matchReasons shared_skills complementary matched_roles proj_skills.length emb_score
    shared_skills := shared_skills
    complementary_skills := complementary }

/-- A Python value that is either an int or a str: the shape of a possibly
malformed `experience_years`. -/
inductive PyNum where
  | int (n : Int)
  | str (s : String)
deriving DecidableEq, Repr

/-- A candidate record as it arrives from loosely-typed callers:
`experience_years` may be malformed (non-numeric). -/
structure CandidateE where
  id : Option String := none
  skills : List String := []
  roles : List String := []
  embedding : Option (List ℚ) := none
  experience_years : PyNum := .int 0
  timezone : String := ""
deriving Repr

/-- `match_user_to_project` as called on a loosely-typed candidate.  A
non-numeric `experience_years` makes `calculate_experience_fit` evaluate
`str < int`, which raises `TypeError` in Python; the raise is modelled as
`Except.error`. -/
def matchCandidate (cosineSim : List ℚ → List ℚ → Option ℚ)
    (candidate : CandidateE) (project_data : ProjectData) : Except String Match :=
  match candidate.experience_years with
  | .int n =>
    .ok (match_user_to_project cosineSim
      { skills := candidate.skills, roles := candidate.roles,
        embedding := candidate.embedding, experience_years := n,
        timezone := candidate.timezone } project_data)
  | .str _ => .error "TypeError: comparison of str and int"

/-- The sort key ordering of `rank_candidates`:
`key=lambda mm: (mm.score, len(mm.shared_skills))` with `reverse=True`.
`matchGe a b` holds when `a` sorts no later than `b`. -/
def matchGe (a b : Match) : Prop :=
  b.score < a.score ∨ (b.score = a.score ∧ b.shared_skills.length ≤ a.shared_skills.length)

instance : DecidableRel matchGe := fun a b => by
  unfold matchGe; infer_instance

/-- The descending stable sort of `matches.sort(key=..., reverse=True)`
(CPython's sort is stable, and `reverse=True` keeps equal keys in their
original relative order, as insertion sort on a total preorder does). -/
def sortMatches (ms : List Match) : List Match :=
  ms.insertionSort matchGe

/-- `MatchingEngine.rank_candidates`: score every candidate, skipping (with a
log) any whose pairwise match raises, then sort and truncate to `top_k`. -/
def rank_candidates (cosineSim : List ℚ → List ℚ → Option ℚ)
    (candidates : List CandidateE) (project_data : ProjectData)
    (top_k : Nat := 20) : List Match :=
  let scored := candidates.filterMap
    (fun c => (matchCandidate cosineSim c project_data).toOption)
  (sortMatches scored).take top_k

-- ===================== Embedding engine (`embedding_engine.py`) =====================

/-- `DEFAULT_DIM = 384` in `embedding_engine.py` (`self.embedding_dim`). -/
def DEFAULT_DIM : Nat := 384

/-- A Python skills value: either a list of skills or a dict keyed by category. -/
inductive SkillsVal where
  | ofList (l : List String)
  | ofDict (d : List (String × List String))
deriving Repr

/-- Python truthiness of an optional skills value (missing/`None`/empty are falsy). -/
def skillsTruthy : Option SkillsVal → Bool
  | none => false
  | some (.ofList l) => !l.isEmpty
  | some (.ofDict d) => !d.isEmpty

/-- `EmbeddingEngine.normalize_skills`: flatten a dict to all its skills, and
de-duplicate via `list(set(...))` (modelled as `dedup`; Python set order is
unspecified and nothing downstream depends on it). -/
def normalize_skills : SkillsVal → List String
  | .ofDict d => (d.flatMap Prod.snd).dedup
  | .ofList l => l.dedup

/-- The `hackathons` sub-dict of a profile record, with the defaults its
`.get` reads supply (`wins_breakdown.get("first", 0)` etc.). -/
structure HackathonData where
  has_hackathon_experience : Bool := false
  wins_first : Nat := 0
  wins_second : Nat := 0
  total_hackathons : Nat := 0
deriving Repr

/-- The dict passed to the embedding engine and the wrapper, holding every
field that `create_profile_text` / `create_project_text` read (plus the
`embedding` key a caller may have stored, which the engine never reads).
`experience_years = none` models an explicit `None`; a missing key is its
`.get` default `some 0`. -/
structure RecordData where
  roles : List String := []
  skills : Option SkillsVal := none
  skills_by_category : Option SkillsVal := none
  experience_years : Option Int := some 0
  hackathons : Option HackathonData := none
  bio : String := ""
  interests : List String := []
  project_types : List String := []
  title : String := ""
  description : String := ""
  required_roles : List String := []
  required_skills : Option SkillsVal := none
  min_experience : Int := 0
  max_experience : Int := 10
  project_type : String := ""
  embedding : Option (List ℚ) := none
deriving Repr

/-- `EmbeddingEngine.create_profile_text`. -/
def create_profile_text (p : RecordData) : String :=
  let parts1 :=
    if p.roles ≠ [] then
      let roles_text := String.intercalate ", " p.roles
      ["Roles: " ++ roles_text, "Position: " ++ roles_text]
    else []
  -- skills = normalize_skills(get("skills") or get("skills_by_category") or [])
  let skillsVal :=
    if skillsTruthy p.skills then p.skills.getD (.ofList [])
    else if skillsTruthy p.skills_by_category then p.skills_by_category.getD (.ofList [])
    else .ofList []
  let skills := normalize_skills skillsVal
  let parts2 :=
    if skills ≠ [] then
      let skills_text := String.intercalate ", " (skills.take 20)
      ["Technical Skills: " ++ skills_text, "Expertise: " ++ skills_text,
        "Proficient in: " ++ skills_text]
    else []
  let parts3 :=
    match p.experience_years with
    | none => []
    | some e =>
      let level :=
        if e ≤ 1 then "Junior"
        else if e ≤ 3 then "Mid-level"
        else if e ≤ 7 then "Senior"
        else "Expert"
      ["Experience: " ++ toString e ++ " years, " ++ level ++ " level"]
  let parts4 :=
    match p.hackathons with
    | none => []
    | some h =>
      if h.has_hackathon_experience then
        if 0 < h.wins_first then
          ["Hackathon winner with " ++ toString h.wins_first ++ " wins"]
        else if 0 < h.wins_second then
          ["Hackathon finalist and top performer"]
        else if 3 ≤ h.total_hackathons then
          ["Active hackathon participant"]
        else []
      else []
  let parts5 := if p.bio ≠ "" then ["About: " ++ String.mk (p.bio.data.take 200)] else []
  let parts6 :=
    if p.interests ≠ [] then
      ["Interests: " ++ String.intercalate ", " (p.interests.take 5)]
    else []
  let parts7 :=
    if p.project_types ≠ [] then
      ["Looking to build: " ++ String.intercalate ", " p.project_types]
    else []
  String.intercalate " | " (parts1 ++ parts2 ++ parts3 ++ parts4 ++ parts5 ++ parts6 ++ parts7)

/-- `EmbeddingEngine.create_project_text`. -/
def create_project_text (p : RecordData) : String :=
  let parts1 := if p.title ≠ "" then ["Project: " ++ p.title] else []
  let parts2 :=
    if p.description ≠ "" then
      ["Description: " ++ String.mk (p.description.data.take 300)]
    else []
  let parts3 :=
    if p.required_roles ≠ [] then
      let r := String.intercalate ", " p.required_roles
      ["Looking for: " ++ r, "Need: " ++ r]
    else []
  -- skills = normalize_skills(get("required_skills") or [])
  let skills := normalize_skills
    (if skillsTruthy p.required_skills then p.required_skills.getD (.ofList []) else .ofList [])
  let parts4 :=
    if skills ≠ [] then
      let s := String.intercalate ", " skills
      ["Required skills: " ++ s, "Tech stack: " ++ s, "Technologies: " ++ s]
    else []
  let parts5 :=
    if 0 < p.min_experience ∨ p.max_experience < 10 then
      ["Experience needed: " ++ toString p.min_experience ++ "-"
        ++ toString p.max_experience ++ " years"]
    else []
  let parts6 := if p.project_type ≠ "" then ["Category: " ++ p.project_type] else []
  String.intercalate " | " (parts1 ++ parts2 ++ parts3 ++ parts4 ++ parts5 ++ parts6)

/-- The mutable state of `EmbeddingEngine`: its corpus and, once fitted, the
vectorizer's learned state (type parameter `V`).  The boolean `self._fitted`
of the source corresponds to `vocab.isSome` (they are set together). -/
structure EngineState (V : Type) where
  corpus : List String := []
  vocab : Option V := none
deriving Repr

section EngineOps

variable {V : Type}
variable (fitF : List String → Except String V)
variable (transformF : V → String → Except String (List ℚ))

/-- `EmbeddingEngine._ensure_fitted`: a no-op when already fitted; otherwise
store the corpus and fit.  `fitF` abstracts `TfidfVectorizer.fit`, which can
raise (e.g. "empty vocabulary"); the raised message is returned at right.
As in the source, `self._corpus = texts` precedes the fit, so the corpus is
updated even when the fit raises. -/
def ensure_fitted (texts : List String) (st : EngineState V) :
    EngineState V × Option String :=
  if st.vocab.isSome then (st, none)
  else
    match fitF texts with
    | .ok v => ({ corpus := texts, vocab := some v }, none)
    | .error e => ({ st with corpus := texts }, some e)

/-- Pad with zeros up to `self.embedding_dim`, or truncate down to it
(the tail of `EmbeddingEngine._encode_text`). -/
def padTruncate (vec : List ℚ) : List ℚ :=
  if vec.length < DEFAULT_DIM then vec ++ List.replicate (DEFAULT_DIM - vec.length) 0
  else vec.take DEFAULT_DIM

/-- `EmbeddingEngine._encode_text`: fit on `[text]` if no vocabulary exists
yet, then transform and pad/truncate to the fixed dimension.  `transformF`
abstracts `TfidfVectorizer.transform` composed with `.toarray()[0]`. -/
def encode_text (st : EngineState V) (text : String) :
    EngineState V × Except String (List ℚ) :=
  let fr := ensure_fitted fitF [text] st
  match fr.2 with
  | some e => (fr.1, .error e)
  | none =>
    match fr.1.vocab with
    | none => (fr.1, .error "vectorizer not fitted")
    | some v =>
      match transformF v text with
      | .error e => (fr.1, .error e)
      | .ok vec => (fr.1, .ok (padTruncate vec))

/-- `EmbeddingEngine.embed_profile`. -/
def embed_profile (st : EngineState V) (profile_data : RecordData) :
    EngineState V × Except String (List ℚ) :=
  encode_text fitF transformF st (create_profile_text profile_data)

/-- `EmbeddingEngine.embed_project`. -/
def embed_project (st : EngineState V) (project_data : RecordData) :
    EngineState V × Except String (List ℚ) :=
  encode_text fitF transformF st (create_project_text project_data)

/-- `MatchingEngineWrapper.ensure_embedding`.  The wrapper's engine is
`none` when `EmbeddingEngine()` could not be constructed.  Any raise inside
`embed_profile`/`embed_project` is caught and replaced by the filler vector
`[0.1] * 384`; the returned engine state is threaded explicitly. -/
def ensure_embedding (engine : Option (EngineState V)) (data_dict : RecordData)
    (kind : String := "profile") : Option (EngineState V) × List ℚ :=
  match engine with
  | none => (none, List.replicate 384 (1/10))
  | some st =>
    let r :=
      if kind = "profile" then embed_profile fitF transformF st data_dict
      else embed_project fitF transformF st data_dict
    match r.2 with
    | .ok l => (some r.1, l)
    | .error _ => (some r.1, List.replicate 384 (1/10))

/-- A run of successive `_encode_text` calls (the only operations that touch
the vectorizer after construction), threading the engine state. -/
def encodeMany (st : EngineState V) : List String → EngineState V × List (Except String (List ℚ))
  | [] => (st, [])
  | t :: ts =>
    let r := encode_text fitF transformF st t
    let rest := encodeMany r.1 ts
    (rest.1, r.2 :: rest.2)

end EngineOps

-- ===================== Helper lemmas =====================

theorem lastSpelling_mem_norm (l : List String) (k : String)
    (h : k ∈ l.map normalize_skill) :
    lastSpelling l k ∈ l ∧ normalize_skill (lastSpelling l k) = k := by
  unfold lastSpelling
  cases hf : l.reverse.find? (fun s => normalize_skill s = k) with
  | none =>
    exfalso
    obtain ⟨s, hs, hns⟩ := List.mem_map.1 h
    have hall := List.find?_eq_none.1 hf s (List.mem_reverse.2 hs)
    simp [hns] at hall
  | some s =>
    have h1 := List.find?_some hf
    have h2 := List.mem_of_find?_eq_some hf
    simp only [decide_eq_true_eq] at h1
    exact ⟨List.mem_reverse.1 h2, by simp [h1]⟩

theorem sortStr_perm (l : List String) : (sortStr l).Perm l :=
  List.perm_insertionSort _ l

/-- Unfolding of `calculate_skill_overlap` in the non-empty case. -/
theorem calculate_skill_overlap_eq (user_skills required_skills : List String)
    (h : required_skills ≠ []) :
    calculate_skill_overlap user_skills required_skills =
      (pymin
          ((((skillKeys required_skills).filter
                (fun k => decide (k ∈ skillKeys user_skills))).length : ℚ)
              / ((skillKeys required_skills).length : ℚ)
            + pymin ((((skillKeys user_skills).filter
                (fun k => decide (k ∉ skillKeys required_skills))).length : ℚ) * (5/100)) (2/10))
          1,
        (sortStr ((skillKeys required_skills).filter
            (fun k => decide (k ∈ skillKeys user_skills)))).map (lastSpelling required_skills),
        (sortStr ((skillKeys required_skills).filter
            (fun k => decide (k ∉ skillKeys user_skills)))).map (lastSpelling required_skills)) := by
  simp only [calculate_skill_overlap, if_neg h]

/-- Mapping a list of normalized keys through the dict
`{normalize_skill(s): s}` of `req` inverts the normalization, lands in `req`,
and preserves distinctness. -/
theorem spelling_facts (req ks : List String)
    (hks : ∀ k ∈ ks, k ∈ req.map normalize_skill) :
    ((ks.map (lastSpelling req)).map normalize_skill) = ks ∧
    (∀ s ∈ ks.map (lastSpelling req), s ∈ req) ∧
    (ks.Nodup → (ks.map (lastSpelling req)).Nodup) := by
  refine ⟨?_, ?_, ?_⟩
  · rw [List.map_map]
    have : ∀ k ∈ ks, (normalize_skill ∘ lastSpelling req) k = id k := fun k hk =>
      (lastSpelling_mem_norm req k (hks k hk)).2
    rw [List.map_congr_left this, List.map_id]
  · intro s hs
    obtain ⟨k, hk, rfl⟩ := List.mem_map.1 hs
    exact (lastSpelling_mem_norm req k (hks k hk)).1
  · intro hnd
    refine List.Nodup.map_on ?_ hnd
    intro x hx y hy hexy
    have hxn := (lastSpelling_mem_norm req x (hks x hx)).2
    have hyn := (lastSpelling_mem_norm req y (hks y hy)).2
    rw [← hxn, ← hyn, hexy]

theorem sharedKeys_toFinset (user req : List String) :
    ((skillKeys req).filter (fun k => decide (k ∈ skillKeys user))).toFinset
      = (req.map normalize_skill).toFinset ∩ (user.map normalize_skill).toFinset := by
  ext k
  simp [skillKeys, List.mem_filter, List.mem_dedup, Finset.mem_inter]

theorem compKeys_toFinset (user req : List String) :
    ((skillKeys req).filter (fun k => decide (k ∉ skillKeys user))).toFinset
      = (req.map normalize_skill).toFinset \ (user.map normalize_skill).toFinset := by
  ext k
  simp [skillKeys, List.mem_filter, List.mem_dedup, Finset.mem_sdiff]

theorem userOnlyKeys_toFinset (user req : List String) :
    ((skillKeys user).filter (fun k => decide (k ∉ skillKeys req))).toFinset
      = (user.map normalize_skill).toFinset \ (req.map normalize_skill).toFinset := by
  ext k
  simp [skillKeys, List.mem_filter, List.mem_dedup, Finset.mem_sdiff]

theorem skillKeys_nodup (l : List String) : (skillKeys l).Nodup :=
  List.nodup_dedup _

theorem keysFilter_length_eq_card (l : List String) (p : String → Bool)
    (hl : l.Nodup) : (l.filter p).length = (l.filter p).toFinset.card :=
  (List.toFinset_card_of_nodup (hl.filter p)).symm

theorem skillKeys_length_eq_card (l : List String) :
    (skillKeys l).length = (l.map normalize_skill).toFinset.card :=
  (List.card_toFinset _).symm

-- ===================== Claim theorems =====================

/-- Claim C1: `calculate_skill_overlap` returns the neutral `(0.5, [], [])` when
the required list is empty; otherwise, keying both sides by `normalize_skill`,
`shared` is the set of normalized keys present on both sides and
`complementary` the set of keys the target requires but the candidate lacks
(both reported in the target's original spelling, without duplicates), and the
score is `min(|shared| / |normalized required set| +
min(|user-only keys| * 0.05, 0.2), 1.0)`.  For candidate `{python, react}` and
required `{python, django, react}` this gives shared `{python, react}`,
complementary `{django}` and score `2/3`. -/
theorem C1_skill_overlap :
    (∀ user req : List String, req = [] →
      calculate_skill_overlap user req = (1/2, [], [])) ∧
    (∀ user req : List String, req ≠ [] →
      (((calculate_skill_overlap user req).2.1.map normalize_skill).toFinset
          = (req.map normalize_skill).toFinset ∩ (user.map normalize_skill).toFinset ∧
        (calculate_skill_overlap user req).2.1.Nodup ∧
        (∀ s ∈ (calculate_skill_overlap user req).2.1, s ∈ req)) ∧
      (((calculate_skill_overlap user req).2.2.map normalize_skill).toFinset
          = (req.map normalize_skill).toFinset \ (user.map normalize_skill).toFinset ∧
        (calculate_skill_overlap user req).2.2.Nodup ∧
        (∀ s ∈ (calculate_skill_overlap user req).2.2, s ∈ req)) ∧
      (calculate_skill_overlap user req).1
        = min
            ((((req.map normalize_skill).toFinset ∩ (user.map normalize_skill).toFinset).card : ℚ)
                / (((req.map normalize_skill).toFinset.card : ℚ))
              + min ((((user.map normalize_skill).toFinset \ (req.map normalize_skill).toFinset).card : ℚ)
                  * (5/100)) (2/10))
            1) ∧
    calculate_skill_overlap ["python", "react"] ["python", "django", "react"]
      = (2/3, ["python", "react"], ["django"]) := by
  refine ⟨?_, ?_, ?_⟩
  · intro user req h
    subst h
    rfl
  · intro user req h
    rw [calculate_skill_overlap_eq user req h]
    set A := (skillKeys req).filter (fun k => decide (k ∈ skillKeys user)) with hA
    set B := (skillKeys req).filter (fun k => decide (k ∉ skillKeys user)) with hB
    set U := (skillKeys user).filter (fun k => decide (k ∉ skillKeys req)) with hU
    have hAnd : A.Nodup := (skillKeys_nodup req).filter _
    have hBnd : B.Nodup := (skillKeys_nodup req).filter _
    have hAmem : ∀ k ∈ sortStr A, k ∈ req.map normalize_skill := by
      intro k hk
      have := (sortStr_perm A).mem_iff.1 hk
      rw [hA] at this
      exact List.mem_dedup.1 (List.mem_filter.1 this).1
    have hBmem : ∀ k ∈ sortStr B, k ∈ req.map normalize_skill := by
      intro k hk
      have := (sortStr_perm B).mem_iff.1 hk
      rw [hB] at this
      exact List.mem_dedup.1 (List.mem_filter.1 this).1
    obtain ⟨hAeq, hAin, hAnodup⟩ := spelling_facts req (sortStr A) hAmem
    obtain ⟨hBeq, hBin, hBnodup⟩ := spelling_facts req (sortStr B) hBmem
    refine ⟨⟨?_, ?_, ?_⟩, ⟨?_, ?_, ?_⟩, ?_⟩
    · rw [hAeq, List.toFinset_eq_of_perm _ _ (sortStr_perm A), sharedKeys_toFinset]
    · exact hAnodup ((sortStr_perm A).nodup_iff.2 hAnd)
    · exact hAin
    · rw [hBeq, List.toFinset_eq_of_perm _ _ (sortStr_perm B), compKeys_toFinset]
    · exact hBnodup ((sortStr_perm B).nodup_iff.2 hBnd)
    · exact hBin
    · have h1 : A.length = ((req.map normalize_skill).toFinset ∩ (user.map normalize_skill).toFinset).card := by
        rw [hA, keysFilter_length_eq_card _ _ (skillKeys_nodup req), sharedKeys_toFinset]
      have h2 : (skillKeys req).length = (req.map normalize_skill).toFinset.card :=
        skillKeys_length_eq_card req
      have h3 : U.length = ((user.map normalize_skill).toFinset \ (req.map normalize_skill).toFinset).card := by
        rw [hU, keysFilter_length_eq_card _ _ (skillKeys_nodup user), userOnlyKeys_toFinset]
      show pymin ((A.length : ℚ) / ((skillKeys req).length : ℚ)
          + pymin ((U.length : ℚ) * (5/100)) (2/10)) 1 = _
      rw [pymin_eq_min, pymin_eq_min, h1, h2, h3]
  · have hs : (calculate_skill_overlap ["python", "react"] ["python", "django", "react"]).1
        = 2/3 := by
      rw [calculate_skill_overlap_eq _ _ (by decide)]
      have l1 : (List.filter (fun k => decide (k ∈ skillKeys ["python", "react"]))
          (skillKeys ["python", "django", "react"])).length = 2 := by decide
      have l2 : (skillKeys ["python", "django", "react"]).length = 3 := by decide
      have l3 : (List.filter (fun k => decide (k ∉ skillKeys ["python", "django", "react"]))
          (skillKeys ["python", "react"])).length = 0 := by decide
      show pymin ((((List.filter (fun k => decide (k ∈ skillKeys ["python", "react"]))
            (skillKeys ["python", "django", "react"])).length : ℚ))
            / ((skillKeys ["python", "django", "react"]).length : ℚ)
          + pymin (((List.filter (fun k => decide (k ∉ skillKeys ["python", "django", "react"]))
            (skillKeys ["python", "react"])).length : ℚ) * (5/100)) (2/10)) 1 = 2/3
      rw [l1, l2, l3]
      norm_num [pymin]
    have h2 : (calculate_skill_overlap ["python", "react"] ["python", "django", "react"]).2
        = (["python", "react"], ["django"]) := by decide
    exact Prod.ext hs h2

/-- Witness for C1 at concrete inputs: the empty-required default and the
shared-set characterization evaluated at candidate `["python"]`,
target `["python", "extra"]`. -/
theorem C1_skill_overlap_witness :
    calculate_skill_overlap ["a"] [] = (1/2, [], []) ∧
    ((calculate_skill_overlap ["python"] ["python", "extra"]).2.1.map normalize_skill).toFinset
      = ((["python", "extra"] : List String).map normalize_skill).toFinset
        ∩ ((["python"] : List String).map normalize_skill).toFinset :=
  ⟨C1_skill_overlap.1 ["a"] [] rfl,
    (C1_skill_overlap.2.1 ["python"] ["python", "extra"] (by decide)).1.1⟩

/-- Claim C2 counterexample: the weights of the five sub-scores actually
combined into the final score in `match_user_to_project` (skill overlap,
embedding similarity, role match, experience fit, availability) do NOT sum
to 1.0. -/
theorem C2_weights_counterexample :
    WEIGHTS.skill_overlap + WEIGHTS.embedding_similarity + WEIGHTS.role_match
      + WEIGHTS.experience_fit + WEIGHTS.availability ≠ 1 := by
  norm_num [WEIGHTS]

/-- Claim C2 (amended): the weights applied to the five sub-scores actually
combined in `match_user_to_project` sum to 0.95; only together with the
`hackathon_bonus` weight, which `match_user_to_project` never applies, does
the `WEIGHTS` table sum to 1.0. -/
theorem C2_weights :
    WEIGHTS.skill_overlap + WEIGHTS.embedding_similarity + WEIGHTS.role_match
        + WEIGHTS.experience_fit + WEIGHTS.availability = 19/20 ∧
    WEIGHTS.skill_overlap + WEIGHTS.embedding_similarity + WEIGHTS.role_match
        + WEIGHTS.experience_fit + WEIGHTS.availability + WEIGHTS.hackathon_bonus = 1 := by
  constructor <;> norm_num [WEIGHTS]

theorem clamp01_nonneg (x : ℚ) : 0 ≤ clamp01 x := by
  unfold clamp01
  rw [pymax_eq_max]
  exact le_max_left 0 _

theorem clamp01_le_one (x : ℚ) : clamp01 x ≤ 1 := by
  unfold clamp01
  rw [pymax_eq_max, pymin_eq_min]
  exact max_le (by norm_num) (min_le_left 1 x)

/-- Claim C3: for every candidate/target pair the score of the `Match`
returned by `match_user_to_project` lies in `[0, 1]`, even after the additive
tie-break boost `min(|shared_skills| * 0.02, 0.12)` is added to the weighted
sum (the clamp is applied after the boost). -/
theorem C3_score_clamped (cosineSim : List ℚ → List ℚ → Option ℚ)
    (u : UserData) (p : ProjectData) :
    0 ≤ (match_user_to_project cosineSim u p).score ∧
    (match_user_to_project cosineSim u p).score ≤ 1 := by
  obtain ⟨x, hx⟩ : ∃ x, (match_user_to_project cosineSim u p).score = clamp01 x := ⟨_, rfl⟩
  rw [hx]
  exact ⟨clamp01_nonneg x, clamp01_le_one x⟩

/-- Claim C5 counterexample: the claim's three cases, quantified over all
integer `years`, `min`, `max`, are contradictory when `min > max`: at
`years = 5`, `min = 10`, `max = 0` the code returns the under-minimum penalty
`0.5`, not the over-maximum penalty `max(0.7, 1 - 5*0.05) = 0.75` the claim's
third case demands. -/
theorem C5_experience_fit_counterexample :
    ¬ (∀ years mn mx : Int,
        (mn ≤ years ∧ years ≤ mx → calculate_experience_fit years mn mx = 1) ∧
        (years < mn →
          calculate_experience_fit years mn mx
            = max (1/2) (1 - ((mn - years : Int) : ℚ) * (15/100))) ∧
        (mx < years →
          calculate_experience_fit years mn mx
            = max (7/10) (1 - ((years - mx : Int) : ℚ) * (5/100)))) := by
  intro h
  have h3 := (h 5 10 0).2.2 (by norm_num)
  have hval : calculate_experience_fit 5 10 0 = 1/2 := by
    unfold calculate_experience_fit
    norm_num [pymax]
  rw [hval] at h3
  rw [show ((5 : Int) - 0 : Int) = 5 by norm_num] at h3
  norm_num at h3

/-- Claim C5 (amended): for `min ≤ max`, `calculate_experience_fit` is `1.0` on
`[min, max]`, `max(0.5, 1 - 0.15*(min - years))` below the minimum,
`max(0.7, 1 - 0.05*(years - max))` above the maximum (the under-minimum branch
is also what runs when `min > max` and `years < min`), and is monotonically
non-increasing as the gap outside `[min, max]` grows. -/
theorem C5_experience_fit (years mn mx : Int) (h : mn ≤ mx) :
    (mn ≤ years → years ≤ mx → calculate_experience_fit years mn mx = 1) ∧
    (years < mn →
      calculate_experience_fit years mn mx
        = max (1/2) (1 - ((mn - years : Int) : ℚ) * (15/100))) ∧
    (mx < years →
      calculate_experience_fit years mn mx
        = max (7/10) (1 - ((years - mx : Int) : ℚ) * (5/100))) ∧
    (∀ y1 y2 : Int, y1 ≤ y2 → y2 ≤ mn →
      calculate_experience_fit y1 mn mx ≤ calculate_experience_fit y2 mn mx) ∧
    (∀ y1 y2 : Int, mx ≤ y1 → y1 ≤ y2 →
      calculate_experience_fit y2 mn mx ≤ calculate_experience_fit y1 mn mx) := by
  have fit_of_mem : ∀ y : Int, mn ≤ y → y ≤ mx → calculate_experience_fit y mn mx = 1 := by
    intro y h1 h2
    unfold calculate_experience_fit
    rw [if_neg (by omega), if_neg (by omega)]
  have fit_under : ∀ y : Int, y < mn →
      calculate_experience_fit y mn mx
        = max (1/2) (1 - ((mn - y : Int) : ℚ) * (15/100)) := by
    intro y hy
    unfold calculate_experience_fit
    rw [if_pos (by omega), pymax_eq_max]
  have fit_over : ∀ y : Int, mx < y →
      calculate_experience_fit y mn mx
        = max (7/10) (1 - ((y - mx : Int) : ℚ) * (5/100)) := by
    intro y hy
    unfold calculate_experience_fit
    rw [if_neg (by omega), if_pos (by omega), pymax_eq_max]
  have fit_le_one : ∀ y : Int, calculate_experience_fit y mn mx ≤ 1 := by
    intro y
    rcases lt_or_le y mn with hy | hy
    · rw [fit_under y hy]
      refine max_le (by norm_num) ?_
      have : (0 : ℚ) ≤ ((mn - y : Int) : ℚ) * (15/100) := by
        have : (0 : ℚ) ≤ ((mn - y : Int) : ℚ) := by
          exact_mod_cast Int.sub_nonneg.2 (le_of_lt hy)
        positivity
      linarith
    · rcases le_or_lt y mx with hy2 | hy2
      · rw [fit_of_mem y hy hy2]
      · rw [fit_over y hy2]
        refine max_le (by norm_num) ?_
        have : (0 : ℚ) ≤ ((y - mx : Int) : ℚ) * (5/100) := by
          have : (0 : ℚ) ≤ ((y - mx : Int) : ℚ) := by
            exact_mod_cast Int.sub_nonneg.2 (le_of_lt hy2)
          positivity
        linarith
  refine ⟨fit_of_mem years, fit_under years, fit_over years, ?_, ?_⟩
  · intro y1 y2 h12 h2n
    rcases lt_or_le y1 mn with hy1 | hy1
    · rcases lt_or_le y2 mn with hy2 | hy2
      · rw [fit_under y1 hy1, fit_under y2 hy2]
        refine max_le_max le_rfl ?_
        have hc : ((mn - y2 : Int) : ℚ) ≤ ((mn - y1 : Int) : ℚ) := by
          exact_mod_cast Int.sub_le_sub_left h12 mn
        nlinarith
      · have hy2' : y2 = mn := le_antisymm h2n hy2
        rw [fit_of_mem y2 hy2 (hy2' ▸ h)]
        exact fit_le_one y1
    · have e1 : y1 = mn := le_antisymm (le_trans h12 h2n) hy1
      have e2 : y2 = mn := le_antisymm h2n (le_trans hy1 h12)
      rw [e1, e2]
  · intro y1 y2 hx1 h12
    rcases lt_or_le mx y2 with hy2 | hy2
    · rcases lt_or_le mx y1 with hy1 | hy1
      · rw [fit_over y1 hy1, fit_over y2 hy2]
        refine max_le_max le_rfl ?_
        have hc : ((y1 - mx : Int) : ℚ) ≤ ((y2 - mx : Int) : ℚ) := by
          exact_mod_cast Int.sub_le_sub_right h12 mx
        nlinarith
      · have hy1' : y1 = mx := le_antisymm hy1 hx1
        rw [fit_of_mem y1 (hy1' ▸ h) hy1]
        exact fit_le_one y2
    · have e1 : y1 = mx := le_antisymm (le_trans h12 hy2) hx1
      have e2 : y2 = mx := le_antisymm hy2 (le_trans hx1 h12)
      rw [e1, e2]

/-- Witness for C5 at concrete values. -/
theorem C5_experience_fit_witness :
    (0 : Int) ≤ 10 ∧ calculate_experience_fit 5 0 10 = 1 :=
  ⟨by norm_num, (C5_experience_fit 5 0 10 (by norm_num)).1 (by norm_num) (by norm_num)⟩

instance : IsTotal Match matchGe := by
  constructor
  intro a b
  unfold matchGe
  rcases lt_trichotomy a.score b.score with h | h | h
  · exact Or.inr (Or.inl h)
  · rcases Nat.le_total b.shared_skills.length a.shared_skills.length with hl | hl
    · exact Or.inl (Or.inr ⟨h.symm, hl⟩)
    · exact Or.inr (Or.inr ⟨h, hl⟩)
  · exact Or.inl (Or.inl h)

instance : IsTrans Match matchGe := by
  constructor
  intro a b c hab hbc
  unfold matchGe at *
  rcases hab with h1 | ⟨h1, h1l⟩ <;> rcases hbc with h2 | ⟨h2, h2l⟩
  · exact Or.inl (lt_trans h2 h1)
  · exact Or.inl (h2 ▸ h1)
  · exact Or.inl (h1 ▸ h2)
  · exact Or.inr ⟨h2.trans h1, h2l.trans h1l⟩

/-- Claim C4: `rank_candidates` returns the scored matches sorted descending
primarily by score and secondarily by shared-skill count (`matchGe` is exactly
that order), truncated to the FIRST `top_k` entries of that descending order:
its output is sorted, is a sub-permutation of the scored matches, has length
`min top_k |scored|`, and — the truncation-as-prefix property — extends by
some `rest` to a descending-sorted permutation of ALL the scored matches, so
the retained entries are the top-ranked ones, never a lower-ranked selection.
For matches with scores `[0.9, 0.9, 0.5]` and shared-skill counts `[2, 5, 10]`,
the 0.9-score match with 5 shared skills ranks above the one with 2, and both
rank above the 0.5-score match. -/
theorem C4_rank_candidates :
    (∀ (cos : List ℚ → List ℚ → Option ℚ) (cands : List CandidateE) (p : ProjectData) (k : Nat),
      List.Sorted matchGe (rank_candidates cos cands p k) ∧
      (rank_candidates cos cands p k).Subperm
        (cands.filterMap (fun c => (matchCandidate cos c p).toOption)) ∧
      (rank_candidates cos cands p k).length
        = min k (cands.filterMap (fun c => (matchCandidate cos c p).toOption)).length ∧
      ∃ rest : List Match,
        (rank_candidates cos cands p k ++ rest).Perm
          (cands.filterMap (fun c => (matchCandidate cos c p).toOption)) ∧
        List.Sorted matchGe (rank_candidates cos cands p k ++ rest)) ∧
    sortMatches
        [⟨"A", 9/10, [], ["s1", "s2"], []⟩,
          ⟨"B", 9/10, [], ["s1", "s2", "s3", "s4", "s5"], []⟩,
          ⟨"C", 1/2, [], ["t1", "t2", "t3", "t4", "t5", "t6", "t7", "t8", "t9", "t10"], []⟩]
      = [⟨"B", 9/10, [], ["s1", "s2", "s3", "s4", "s5"], []⟩,
          ⟨"A", 9/10, [], ["s1", "s2"], []⟩,
          ⟨"C", 1/2, [], ["t1", "t2", "t3", "t4", "t5", "t6", "t7", "t8", "t9", "t10"], []⟩] := by
  constructor
  · intro cos cands p k
    have hconcat : rank_candidates cos cands p k
        ++ (sortMatches (cands.filterMap (fun c => (matchCandidate cos c p).toOption))).drop k
        = sortMatches (cands.filterMap (fun c => (matchCandidate cos c p).toOption)) := by
      show (sortMatches _).take k ++ (sortMatches _).drop k = sortMatches _
      exact List.take_append_drop k _
    refine ⟨?_, ?_, ?_, ?_⟩
    · exact List.Pairwise.sublist (List.take_sublist _ _) (List.sorted_insertionSort matchGe _)
    · exact ((List.take_sublist _ _).subperm).trans
        (List.perm_insertionSort matchGe _).subperm
    · show ((sortMatches _).take k).length = _
      rw [List.length_take]
      simp only [sortMatches]
      rw [(List.perm_insertionSort matchGe _).length_eq]
    · refine ⟨(sortMatches
          (cands.filterMap (fun c => (matchCandidate cos c p).toOption))).drop k, ?_, ?_⟩
      · rw [hconcat]
        exact List.perm_insertionSort matchGe _
      · rw [hconcat]
        exact List.sorted_insertionSort matchGe _
  · set mA : Match := ⟨"A", 9/10, [], ["s1", "s2"], []⟩ with hmA
    set mB : Match := ⟨"B", 9/10, [], ["s1", "s2", "s3", "s4", "s5"], []⟩ with hmB
    set mC : Match := ⟨"C", 1/2, [], ["t1", "t2", "t3", "t4", "t5", "t6", "t7", "t8", "t9", "t10"], []⟩ with hmC
    have hBC : matchGe mB mC := Or.inl (by rw [hmB, hmC]; norm_num)
    have hAC : matchGe mA mC := Or.inl (by rw [hmA, hmC]; norm_num)
    have hAB : ¬ matchGe mA mB := by
      rw [hmA, hmB]
      rintro (h | ⟨h1, h2⟩)
      · norm_num at h
      · exact absurd h2 (by decide)
    show List.orderedInsert matchGe mA (List.orderedInsert matchGe mB
        (List.orderedInsert matchGe mC [])) = [mB, mA, mC]
    have e1 : List.orderedInsert matchGe mC [] = [mC] := rfl
    rw [e1]
    have e2 : List.orderedInsert matchGe mB [mC] = [mB, mC] := by
      simp only [List.orderedInsert]
      rw [if_pos hBC]
    rw [e2]
    simp only [List.orderedInsert]
    rw [if_neg hAB, if_pos hAC]

theorem padTruncate_length (vec : List ℚ) : (padTruncate vec).length = DEFAULT_DIM := by
  unfold padTruncate
  split
  · rw [List.length_append, List.length_replicate]
    omega
  · rw [List.length_take]
    omega

theorem encode_text_ok_length {V : Type} (fitF : List String → Except String V)
    (transformF : V → String → Except String (List ℚ)) (st : EngineState V)
    (text : String) (l : List ℚ)
    (h : (encode_text fitF transformF st text).2 = .ok l) :
    l.length = DEFAULT_DIM := by
  unfold encode_text at h
  rcases hf : ensure_fitted fitF [text] st with ⟨st1, err⟩
  rw [hf] at h
  dsimp only at h
  cases err with
  | some e => simp at h
  | none =>
    cases hv : st1.vocab with
    | none => rw [hv] at h; simp at h
    | some v =>
      rw [hv] at h
      dsimp only at h
      cases ht : transformF v text with
      | error e => rw [ht] at h; simp at h
      | ok vec =>
        rw [ht] at h
        dsimp only at h
        have hl : padTruncate vec = l := Except.ok.inj h
        rw [← hl]
        exact padTruncate_length vec

/-- Claim C6 counterexample: a record that already carries an embedding (here
`[42]`, of length 1) does NOT get it returned by `ensure_embedding`: the
wrapper unconditionally recomputes a fresh vector (here of length 384). -/
theorem C6_ensure_embedding_counterexample :
    (ensure_embedding (V := Unit) (fun _ => Except.ok ()) (fun _ _ => Except.ok [])
        (some { corpus := [], vocab := some () }) { embedding := some [42] } "profile").2
      ≠ [42] := by
  intro h
  have hval : (ensure_embedding (V := Unit) (fun _ => Except.ok ()) (fun _ _ => Except.ok [])
      (some { corpus := [], vocab := some () }) { embedding := some [42] } "profile").2
      = List.replicate 384 (0 : ℚ) := rfl
  rw [hval] at h
  have hlen := congrArg List.length h
  rw [List.length_replicate, List.length_singleton] at hlen
  exact absurd hlen (by decide)

/-- Claim C6 (amended): `ensure_embedding` never reuses an embedding stored on
the record: its result is independent of the record's `embedding` field, and
the vector it returns is always freshly computed with length
`EMBEDDING_DIM = 384` (filler on failure, encoded text otherwise). -/
theorem C6_ensure_embedding {V : Type} (fitF : List String → Except String V)
    (transformF : V → String → Except String (List ℚ))
    (engine : Option (EngineState V)) (data : RecordData) (e : Option (List ℚ))
    (kind : String) :
    ensure_embedding fitF transformF engine { data with embedding := e } kind
      = ensure_embedding fitF transformF engine data kind ∧
    (ensure_embedding fitF transformF engine data kind).2.length = 384 := by
  constructor
  · unfold ensure_embedding
    cases engine with
    | none => rfl
    | some st =>
      unfold embed_profile embed_project
      have h1 : create_profile_text { data with embedding := e } = create_profile_text data := rfl
      have h2 : create_project_text { data with embedding := e } = create_project_text data := rfl
      rw [h1, h2]
  · unfold ensure_embedding
    cases engine with
    | none =>
      dsimp only
      rw [List.length_replicate]
    | some st =>
      dsimp only
      rcases hr : (if kind = "profile" then embed_profile fitF transformF st data
          else embed_project fitF transformF st data) with ⟨st2, res⟩
      cases res with
      | error err =>
        dsimp only
        rw [List.length_replicate]
      | ok l =>
        dsimp only
        have hok : (encode_text fitF transformF st
            (if kind = "profile" then create_profile_text data else create_project_text data)).2
            = .ok l := by
          by_cases hk : kind = "profile"
          · rw [if_pos hk]
            rw [if_pos hk] at hr
            unfold embed_profile at hr
            rw [hr]
          · rw [if_neg hk]
            rw [if_neg hk] at hr
            unfold embed_project at hr
            rw [hr]
        exact encode_text_ok_length _ _ _ _ _ hok

/-- Claim C7: `ensure_embedding` never raises.  It is a total function; when no
embedding engine is available, or when the underlying embed call raises
internally, it returns the uniform filler vector of `EMBEDDING_DIM = 384`
copies of `0.1` instead of propagating the error. -/
theorem C7_ensure_embedding_never_raises {V : Type}
    (fitF : List String → Except String V)
    (transformF : V → String → Except String (List ℚ))
    (data : RecordData) (kind : String) :
    (ensure_embedding fitF transformF none data kind).2 = List.replicate 384 (1/10) ∧
    (∀ (st : EngineState V) (e : String),
      (if kind = "profile" then embed_profile fitF transformF st data
        else embed_project fitF transformF st data).2 = .error e →
      (ensure_embedding fitF transformF (some st) data kind).2 = List.replicate 384 (1/10)) := by
  constructor
  · rfl
  · intro st e h
    unfold ensure_embedding
    dsimp only
    rcases hr : (if kind = "profile" then embed_profile fitF transformF st data
        else embed_project fitF transformF st data) with ⟨st2, res⟩
    rw [hr] at h
    dsimp only at h
    subst h
    rfl

/-- Witness for C7: an engine whose vectorizer fit raises "empty vocabulary"
makes `ensure_embedding` return the filler vector, as does a missing engine. -/
theorem C7_ensure_embedding_witness :
    (ensure_embedding (V := Unit) (fun _ => Except.error "empty vocabulary")
        (fun _ _ => Except.ok []) none ({} : RecordData) "profile").2
      = List.replicate 384 (1/10) ∧
    (ensure_embedding (V := Unit) (fun _ => Except.error "empty vocabulary")
        (fun _ _ => Except.ok []) (some {}) ({} : RecordData) "profile").2
      = List.replicate 384 (1/10) :=
  ⟨(C7_ensure_embedding_never_raises _ _ {} "profile").1,
   (C7_ensure_embedding_never_raises _ _ {} "profile").2 {} "empty vocabulary" rfl⟩

theorem ensure_fitted_of_fitted {V : Type} (fitF : List String → Except String V)
    (texts : List String) (st : EngineState V) (h : st.vocab.isSome) :
    ensure_fitted fitF texts st = (st, none) := by
  unfold ensure_fitted
  rw [if_pos h]

theorem encode_text_state_fitted {V : Type} (fitF : List String → Except String V)
    (transformF : V → String → Except String (List ℚ)) (st : EngineState V)
    (h : st.vocab.isSome) (t : String) :
    (encode_text fitF transformF st t).1 = st := by
  unfold encode_text
  rw [ensure_fitted_of_fitted fitF [t] st h]
  dsimp only
  cases hv : st.vocab with
  | none => rfl
  | some v =>
    dsimp only
    cases h2 : transformF v t <;> rfl

/-- Claim C9: once the vectorizer has been fitted (`_fitted`, i.e. the
vocabulary exists), `_encode_text` leaves the engine state untouched, so
encoding the same text twice yields identical vectors, and no run of
subsequent encode calls (the only operations touching the vectorizer) ever
refits the vocabulary. -/
theorem C9_fit_once_determinism {V : Type} (fitF : List String → Except String V)
    (transformF : V → String → Except String (List ℚ)) (st : EngineState V)
    (h : st.vocab.isSome) :
    (∀ t : String,
      (encode_text fitF transformF st t).1 = st ∧
      (encode_text fitF transformF (encode_text fitF transformF st t).1 t).2
        = (encode_text fitF transformF st t).2) ∧
    (∀ ts : List String, (encodeMany fitF transformF st ts).1 = st) := by
  constructor
  · intro t
    refine ⟨encode_text_state_fitted fitF transformF st h t, ?_⟩
    rw [encode_text_state_fitted fitF transformF st h t]
  · intro ts
    induction ts with
    | nil => rfl
    | cons t ts ih =>
      show (encodeMany fitF transformF ((encode_text fitF transformF st t).1) ts).1 = st
      rw [encode_text_state_fitted fitF transformF st h t]
      exact ih

/-- Witness for C9 on a concrete fitted engine state. -/
theorem C9_fit_once_determinism_witness :
    (encode_text (V := Unit) (fun _ => Except.ok ()) (fun _ _ => Except.ok [1])
        { corpus := ["c"], vocab := some () } "text").1
      = { corpus := ["c"], vocab := some () } ∧
    (encodeMany (V := Unit) (fun _ => Except.ok ()) (fun _ _ => Except.ok [1])
        { corpus := ["c"], vocab := some () } ["a", "b"]).1
      = { corpus := ["c"], vocab := some () } :=
  ⟨((C9_fit_once_determinism (V := Unit) (fun _ => Except.ok ()) (fun _ _ => Except.ok [1])
      { corpus := ["c"], vocab := some () } rfl).1 "text").1,
    (C9_fit_once_determinism (V := Unit) (fun _ => Except.ok ()) (fun _ _ => Except.ok [1])
      { corpus := ["c"], vocab := some () } rfl).2 ["a", "b"]⟩

theorem match_user_congr (cos : List ℚ → List ℚ → Option ℚ) (u : UserData)
    (p1 p2 : ProjectData)
    (h1 : projSkillsOf p1 = projSkillsOf p2) (h2 : projRolesOf p1 = projRolesOf p2)
    (h3 : p1.id = p2.id) (h4 : p1.embedding = p2.embedding)
    (h5 : p1.min_experience = p2.min_experience) (h6 : p1.max_experience = p2.max_experience)
    (h7 : p1.timezone = p2.timezone) :
    match_user_to_project cos u p1 = match_user_to_project cos u p2 := by
  unfold match_user_to_project
  rw [h1, h2, h3, h4, h5, h6, h7]

theorem projSkillsOf_skills (p : ProjectData) (s : List String)
    (hs : p.skills = some s) (hne : s ≠ []) : projSkillsOf p = s := by
  cases s with
  | nil => exact absurd rfl hne
  | cons x xs =>
    unfold projSkillsOf
    rw [hs]

theorem projSkillsOf_fallback (p : ProjectData)
    (hs : p.skills = none ∨ p.skills = some []) :
    (∀ r, p.required_skills = some r → r ≠ [] → projSkillsOf p = r) ∧
    ((p.required_skills = none ∨ p.required_skills = some []) → projSkillsOf p = []) := by
  constructor
  · intro r hr hne
    cases r with
    | nil => exact absurd rfl hne
    | cons x xs =>
      unfold projSkillsOf
      rcases hs with hs | hs <;> rw [hs, hr]
  · intro hr
    unfold projSkillsOf
    rcases hs with hs | hs <;> rcases hr with hr | hr <;> rw [hs, hr]

/-- Claim C10: `match_user_to_project` reads the target's required skills from
the `skills` field whenever it is present and non-empty, falling back to
`required_skills` only otherwise (and to `[]` when both are falsy); a project
carrying both fields is scored against `skills` and its `required_skills` value
is ignored entirely (the whole `Match` is unchanged by it).  Role matching
analogously reads `required_roles` first and falls back to `roles`. -/
theorem C10_project_field_fallback :
    (∀ (p : ProjectData) (s : List String),
      p.skills = some s → s ≠ [] → projSkillsOf p = s) ∧
    (∀ p : ProjectData, p.skills = none ∨ p.skills = some [] →
      (∀ r, p.required_skills = some r → r ≠ [] → projSkillsOf p = r) ∧
      ((p.required_skills = none ∨ p.required_skills = some []) → projSkillsOf p = [])) ∧
    (∀ (cos : List ℚ → List ℚ → Option ℚ) (u : UserData) (p : ProjectData)
        (s : List String) (rs rs' : Option (List String)),
      p.skills = some s → s ≠ [] →
      match_user_to_project cos u { p with required_skills := rs }
        = match_user_to_project cos u { p with required_skills := rs' }) ∧
    (∀ (p : ProjectData) (r : List String),
      p.required_roles = some r → r ≠ [] → projRolesOf p = r) ∧
    (∀ p : ProjectData, p.required_roles = none ∨ p.required_roles = some [] →
      projRolesOf p = p.roles.getD []) := by
  refine ⟨projSkillsOf_skills, projSkillsOf_fallback, ?_, ?_, ?_⟩
  · intro cos u p s rs rs' hs hne
    apply match_user_congr
    · rw [projSkillsOf_skills { p with required_skills := rs } s hs hne,
        projSkillsOf_skills { p with required_skills := rs' } s hs hne]
    all_goals rfl
  · intro p r hr hne
    cases r with
    | nil => exact absurd rfl hne
    | cons x xs =>
      unfold projRolesOf
      rw [hr]
  · intro p hr
    unfold projRolesOf
    rcases hr with hr | hr <;> rw [hr]

/-- Witness for C10 on concrete project records carrying both, one, or
neither of the skill/role fields. -/
theorem C10_project_field_fallback_witness :
    projSkillsOf { skills := some ["python"], required_skills := some ["go"] } = ["python"] ∧
    projSkillsOf { skills := some [], required_skills := some ["go"] } = ["go"] ∧
    projRolesOf { required_roles := none, roles := some ["frontend"] } = ["frontend"] :=
  ⟨C10_project_field_fallback.1 _ ["python"] rfl (by decide),
   (C10_project_field_fallback.2.1 _ (Or.inr rfl)).1 ["go"] rfl (by decide),
   C10_project_field_fallback.2.2.2.2 _ (Or.inl rfl)⟩


theorem match_score_eq (cos : List ℚ → List ℚ → Option ℚ) (u : UserData) (p : ProjectData) :
    (match_user_to_project cos u p).score
      = clamp01 ((calculate_skill_overlap u.skills (projSkillsOf p)).1 * WEIGHTS.skill_overlap
        + (match u.embedding, p.embedding with
            | some ue, some pe => calculate_embedding_score cos (some ue) (some pe)
            | _, _ => 0) * WEIGHTS.embedding_similarity
        + (calculate_role_match u.roles (projRolesOf p)).1 * WEIGHTS.role_match
        + calculate_experience_fit u.experience_years p.min_experience p.max_experience
            * WEIGHTS.experience_fit
        + calculate_availability_score u.timezone p.timezone * WEIGHTS.availability
        + pymin (((calculate_skill_overlap u.skills (projSkillsOf p)).2.1.length : ℚ)
            * (2/100)) (12/100)) := rfl

theorem overlap_python_python : calculate_skill_overlap ["python"] ["python"]
    = (1, ["python"], []) := by
  have hs : (calculate_skill_overlap ["python"] ["python"]).1 = 1 := by
    rw [calculate_skill_overlap_eq _ _ (by decide)]
    have l1 : (List.filter (fun k => decide (k ∈ skillKeys ["python"]))
        (skillKeys ["python"])).length = 1 := by decide
    have l2 : (skillKeys ["python"]).length = 1 := by decide
    have l3 : (List.filter (fun k => decide (k ∉ skillKeys ["python"]))
        (skillKeys ["python"])).length = 0 := by decide
    show pymin ((((List.filter (fun k => decide (k ∈ skillKeys ["python"]))
          (skillKeys ["python"])).length : ℚ))
          / ((skillKeys ["python"]).length : ℚ)
        + pymin (((List.filter (fun k => decide (k ∉ skillKeys ["python"]))
          (skillKeys ["python"])).length : ℚ) * (5/100)) (2/10)) 1 = 1
    rw [l1, l2, l3]
    norm_num [pymin]
  have h2 : (calculate_skill_overlap ["python"] ["python"]).2 = (["python"], []) := by decide
  exact Prod.ext hs h2

theorem overlap_none_python : calculate_skill_overlap [] ["python"]
    = (0, [], ["python"]) := by
  have hs : (calculate_skill_overlap [] ["python"]).1 = 0 := by
    rw [calculate_skill_overlap_eq _ _ (by decide)]
    have l1 : (List.filter (fun k => decide (k ∈ skillKeys ([] : List String)))
        (skillKeys ["python"])).length = 0 := by decide
    have l2 : (skillKeys ["python"]).length = 1 := by decide
    have l3 : (List.filter (fun k => decide (k ∉ skillKeys ["python"]))
        (skillKeys ([] : List String))).length = 0 := by decide
    show pymin ((((List.filter (fun k => decide (k ∈ skillKeys ([] : List String)))
          (skillKeys ["python"])).length : ℚ))
          / ((skillKeys ["python"]).length : ℚ)
        + pymin (((List.filter (fun k => decide (k ∉ skillKeys ["python"]))
          (skillKeys ([] : List String))).length : ℚ) * (5/100)) (2/10)) 1 = 0
    rw [l1, l2, l3]
    norm_num [pymin]
  have h2 : (calculate_skill_overlap [] ["python"]).2 = ([], ["python"]) := by decide
  exact Prod.ext hs h2

theorem score_c1 :
    (match_user_to_project (fun _ _ => none) { skills := ["python"] }
      { id := some "p0", skills := some ["python"] }).score = 18/25 := by
  rw [match_score_eq]
  have e1 : projSkillsOf { id := some "p0", skills := some ["python"] } = ["python"] := rfl
  have e2 : projRolesOf { id := some "p0", skills := some ["python"] } = [] := rfl
  norm_num [e1, e2, overlap_python_python, clamp01, pymin, pymax, WEIGHTS,
    calculate_role_match, calculate_experience_fit, calculate_availability_score]

theorem score_c3 :
    (match_user_to_project (fun _ _ => none) {}
      { id := some "p0", skills := some ["python"] }).score = 1/4 := by
  rw [match_score_eq]
  have e1 : projSkillsOf { id := some "p0", skills := some ["python"] } = ["python"] := rfl
  have e2 : projRolesOf { id := some "p0", skills := some ["python"] } = [] := rfl
  norm_num [e1, e2, overlap_none_python, clamp01, pymin, pymax, WEIGHTS,
    calculate_role_match, calculate_experience_fit, calculate_availability_score]

/-- Claim C8: a per-candidate failure inside `rank_candidates` (here a
malformed non-numeric `experience_years`, which makes the Python comparison in
`calculate_experience_fit` raise `TypeError`) only omits that candidate: every
ranked `Match` comes from a successfully scored candidate, a malformed
candidate always errors, and in the concrete 3-candidate batch the bad
candidate is excluded while the other two are scored and ranked normally.
`rank_candidates` itself is total: it never propagates the error. -/
theorem C8_rank_skips_failures :
    (∀ (cos : List ℚ → List ℚ → Option ℚ) (cands : List CandidateE) (p : ProjectData)
        (k : Nat) (m : Match), m ∈ rank_candidates cos cands p k →
      ∃ c ∈ cands, matchCandidate cos c p = .ok m) ∧
    (∀ (cos : List ℚ → List ℚ → Option ℚ) (c : CandidateE) (p : ProjectData) (s : String),
      c.experience_years = .str s →
      matchCandidate cos c p = .error "TypeError: comparison of str and int") ∧
    rank_candidates (fun _ _ => none)
        [{ id := some "c1", skills := ["python"] },
          { id := some "cbad", experience_years := .str "five" },
          { id := some "c3" }]
        { id := some "p0", skills := some ["python"] } 20
      = [match_user_to_project (fun _ _ => none) { skills := ["python"] }
            { id := some "p0", skills := some ["python"] },
          match_user_to_project (fun _ _ => none) {}
            { id := some "p0", skills := some ["python"] }] := by
  refine ⟨?_, ?_, ?_⟩
  · intro cos cands p k m hm
    have hm1 : m ∈ (sortMatches
        (cands.filterMap (fun c => (matchCandidate cos c p).toOption))).take k := hm
    have hm2 : m ∈ sortMatches
        (cands.filterMap (fun c => (matchCandidate cos c p).toOption)) :=
      (List.take_sublist _ _).subset hm1
    have hm3 : m ∈ cands.filterMap (fun c => (matchCandidate cos c p).toOption) :=
      (List.perm_insertionSort matchGe _).subset hm2
    obtain ⟨c, hc, hcm⟩ := List.mem_filterMap.1 hm3
    refine ⟨c, hc, ?_⟩
    cases hmc : matchCandidate cos c p with
    | ok m2 =>
      rw [hmc] at hcm
      simp [Except.toOption] at hcm
      rw [hcm]
    | error e =>
      rw [hmc] at hcm
      simp [Except.toOption] at hcm
  · intro cos c p s h
    unfold matchCandidate
    rw [h]
  · have e0 : rank_candidates (fun _ _ => none)
        [{ id := some "c1", skills := ["python"] },
          { id := some "cbad", experience_years := .str "five" },
          { id := some "c3" }]
        { id := some "p0", skills := some ["python"] } 20
      = (sortMatches
          [match_user_to_project (fun _ _ => none) { skills := ["python"] }
              { id := some "p0", skills := some ["python"] },
            match_user_to_project (fun _ _ => none) {}
              { id := some "p0", skills := some ["python"] }]).take 20 := rfl
    rw [e0]
    set m1 := match_user_to_project (fun _ _ => none) { skills := ["python"] }
      { id := some "p0", skills := some ["python"] } with hm1
    set m3 := match_user_to_project (fun _ _ => none) {}
      { id := some "p0", skills := some ["python"] } with hm3
    have hge : matchGe m1 m3 := by
      refine Or.inl ?_
      rw [hm1, hm3, score_c1, score_c3]
      norm_num
    have e1 : sortMatches [m1, m3] = List.orderedInsert matchGe m1 [m3] := rfl
    have e2 : List.orderedInsert matchGe m1 [m3] = [m1, m3] := by
      simp only [List.orderedInsert]
      rw [if_pos hge]
    rw [e1, e2]
    rfl

/-- Witness for C8: the malformed candidate errors, per the theorem applied at
a concrete record. -/
theorem C8_rank_skips_failures_witness :
    matchCandidate (fun _ _ => none) { experience_years := .str "five" } {}
      = .error "TypeError: comparison of str and int" :=
  C8_rank_skips_failures.2.1 (fun _ _ => none) { experience_years := .str "five" } {} "five" rfl

end MatchMyStack

